import Mathlib

set_option maxRecDepth 8000

/-- Token kinds referenced by the parser source. The token-kind enumeration
lives in an external module of the repository (token_kinds); the constructor
names below follow the names used in the parser source. -/
inductive TokenKind
  | number | identifier
  | int_kw | main | return_kw | if_kw
  | signed_kw | unsigned_kw | void_kw | bool_kw | char_kw | short_kw | long_kw
  | open_paren | close_paren | open_brack | close_brack
  | open_sq_brack | close_sq_brack
  | comma | semicolon
  | plus | star | slash | twoequals | notequal | equals | amp
  deriving DecidableEq, Repr

/-- A lexical token: a kind plus literal content. Source positions are only
used for diagnostic rendering, which is external, so they are omitted. -/
structure Token where
  kind : TokenKind
  content : String
  deriving DecidableEq, Repr

/-- Base arithmetic or void types, as in the external ctypes module. -/
inductive BaseCType
  | void | bool_t | char | short | integer | longint
  deriving DecidableEq, Repr

/-- Modelled from the spec: the type model (ctypes / il_gen modules are not in
src). Base types carry a signedness flag, default signed; PointerCType and
ArrayCType are the two composite constructors used by parse_declaration. -/
inductive CType
  | base (b : BaseCType) (signed : Bool)
  | PointerCType (pointee : CType)
  | ArrayCType (elem : CType) (size : Nat)
  deriving DecidableEq, Repr

/-- Modelled from the spec: ctypes.to_unsigned flips the signedness flag of a
base type (the spec says the unsigned keyword flips the default signed flag). -/
def to_unsigned : CType → CType
  | .base b _ => .base b false
  | t => t

/-- AST node variants, following the classes of the external tree module as
used by the parser source. -/
inductive Node
  | MainNode (body : Node)
  | CompoundNode (items : List Node)
  | ReturnNode (expr : Node) (return_kw : Token)
  | IfStatementNode (conditional : Node) (statement : Node)
  | ExprStatementNode (expr : Node)
  | DeclarationNode (variable_name : Token) (ctype : CType)
  | NumberNode (t : Token)
  | IdentifierNode (t : Token)
  | BinaryOperatorNode (left : Node) (operator : Token) (right : Node)
  | AddrOfNode (expr : Node) (op : Token)
  | DerefNode (expr : Node) (op : Token)
  | FunctionCallNode (func : Node) (args : List Node)
  | ParenExprNode (expr : Node)

/-- The three error-kind tags of ParserError (AT, GOT, AFTER). -/
inductive PEKind
  | AT | GOT | AFTER
  deriving DecidableEq, Repr

/-- A parser diagnostic: message, token index of the failure, and kind tag.
The tokens argument of the Python constructor is used only for rendering the
message and is omitted. -/
structure ParserError where
  message : String
  index : Nat
  kind : PEKind
  deriving DecidableEq, Repr

/-- Modelled from the spec: errors.py is not in src. The spec defines
amount_parsed as the number of tokens successfully consumed before the
failure, which is the index passed at construction. -/
def ParserError.amount_parsed (e : ParserError) : Nat := e.index

/-- Possible non-return outcomes of a parser function: a raised ParserError,
a raised IndexError or KeyError or ValueError from the Python runtime, or
exhaustion of the explicit recursion fuel used by this embedding. -/
inductive Exc
  | perr (e : ParserError)
  | indexError
  | keyError
  | valueError
  | fuelOut
  deriving DecidableEq, Repr

/-- The best-error tracker field of the parser (initially None). -/
abbrev BestErr := Option ParserError

/-- An item on the shift-reduce stack: either a raw token or a reduced
expression node. -/
inductive Item
  | tok (t : Token)
  | node (n : Node)

/-- A stack entry: the item together with the number of tokens it represents. -/
structure StackItem where
  item : Item
  length : Nat

def msgExpectedMain : String := "expected main function starting"
def msgExpectedLBrace : String := "expected \x27\x7b\x27"
def msgExpectedRBrace : String := "expected \x27\x7d\x27"
def msgExpectedReturnKw : String := "expected keyword \x27return\x27"
def msgExpectedIfKw : String := "expected keyword \x27if\x27"
def msgExpectedLParen : String := "expected \x27(\x27"
def msgExpectedRParen : String := "expected \x27)\x27"
def msgExpectedExpression : String := "expected expression"
def msgExpectedTypeName : String := "expected type name"
def msgExpectedIdentifier : String := "expected identifier"
def msgExpectedSemicolon : String := "expected semicolon"
def msgUnexpectedToken : String := "unexpected token"

/-- Source _next_token_is: true iff tokens has an element at index of the
given kind. -/
def _next_token_is (tokens : List Token) (index : Nat) (kind : TokenKind) : Bool :=
  match tokens[index]? with
  | some t => decide (t.kind = kind)
  | none => false

/-- Source _match_token: if tokens[index] has the expected kind return
index + 1, otherwise raise a ParserError with the given message and kind. -/
def _match_token (tokens : List Token) (index : Nat) (kind : TokenKind)
    (message : String) (message_type : PEKind) : Except ParserError Nat :=
  match tokens[index]? with
  | some t =>
      if t.kind = kind then .ok (index + 1)
      else .error ⟨message, index, message_type⟩
  | none => .error ⟨message, index, message_type⟩

/-- Source _expect_semicolon. -/
def _expect_semicolon (tokens : List Token) (index : Nat) : Except ParserError Nat :=
  _match_token tokens index .semicolon msgExpectedSemicolon .AFTER

/-- Source _log_error: replace the best error when there is none yet or when
the new error has amount_parsed at least as large. -/
def _log_error (best : BestErr) (error : ParserError) : BestErr :=
  match best with
  | none => some error
  | some b =>
      if b.amount_parsed ≤ error.amount_parsed then some error else some b

/-- Source dictionary binary_operators mapping token kinds to precedence. -/
def binary_operators : TokenKind → Option Nat
  | .plus => some 11
  | .star => some 12
  | .slash => some 12
  | .twoequals => some 8
  | .notequal => some 8
  | .equals => some 1
  | _ => none

/-- Source dictionary of unary operators written before their operand,
mapping token kinds to node constructors (amp to AddrOfNode, star to
DerefNode). -/
def unary_ops : TokenKind → Option (Node → Token → Node)
  | .amp => some Node.AddrOfNode
  | .star => some Node.DerefNode
  | _ => none

/-- Source set assignment_operators (just the equals kind). -/
def isAssignmentOp (k : TokenKind) : Bool := decide (k = .equals)

/-- True iff both kinds are binary operators and the first has strictly
greater precedence. -/
def precGT (a b : TokenKind) : Bool :=
  match binary_operators a, binary_operators b with
  | some pa, some pb => decide (pb < pa)
  | _, _ => false

/-- True iff tokens[i] exists and its kind satisfies p (models the guarded
lookahead i smaller than the token count in the source conditions). -/
def nextTokenSat (tokens : List Token) (i : Nat) (p : TokenKind → Bool) : Bool :=
  match tokens[i]? with
  | some t => p t.kind
  | none => false

/-- Python negative indexing from the top of the stack: fromTop stack d models
stack[-d]. The stack is stored top-first in this embedding, so stack[-d] is
element d - 1 from the head; an out-of-range access raises IndexError. -/
def fromTop (stack : List StackItem) (d : Nat) : Except Exc StackItem :=
  match stack[d - 1]? with
  | some it => .ok it
  | none => .error .indexError

/-- The while-loop of source match_function_call, walking down the stack.
The loop index i of the source is always negative there; d is its negation.
args accumulates the argument expressions in visit order (top of stack
first); the source reverses it on return. The except KeyError handler of the
source is dead code, since only IndexError can be raised in the loop, and is
therefore not modelled as catching anything. The fuel argument is an
embedding artifact: the walk moves two entries deeper each iteration and
raises IndexError past the bottom, so any fuel above half the stack depth
gives the source behavior. -/
def mfcLoop (stack : List StackItem) : Nat → Nat → List Node →
    Except Exc (Option (Node × List Node))
  | 0, _, _ => .error .fuelOut
  | fuel + 1, d, args =>
    match fromTop stack d with
    | .error e => .error e
    | .ok it =>
      match it.item with
      | .tok _ => .ok none
      | .node n =>
        let args := args ++ [n]
        match fromTop stack (d + 1) with
        | .error e => .error e
        | .ok it2 =>
          match it2.item with
          | .node _ => .ok none
          | .tok t2 =>
            if t2.kind = .comma then
              mfcLoop stack fuel (d + 2) args
            else if t2.kind = .open_paren then
              match fromTop stack (d + 2) with
              | .error e => .error e
              | .ok it3 =>
                match it3.item with
                | .node fn => .ok (some (fn, args.reverse))
                | .tok _ => .ok none
            else .ok none

/-- Source match_function_call: structural match of the stack suffix against
a function-call pattern. Returns the callee node and the argument nodes in
source order on success, none on a failed match, and propagates IndexError
when the walk runs off the bottom of the stack. -/
def match_function_call (stack : List StackItem) :
    Except Exc (Option (Node × List Node)) :=
  if stack.length < 3 then .ok none
  else
    match fromTop stack 1 with
    | .error e => .error e
    | .ok it1 =>
      match it1.item with
      | .node _ => .ok none
      | .tok t1 =>
        if t1.kind ≠ .close_paren then .ok none
        else
          match fromTop stack 2, fromTop stack 3 with
          | .ok it2, .ok it3 =>
            match it2.item, it3.item with
            | .tok t2, .node fn =>
              if t2.kind = .open_paren then .ok (some (fn, []))
              else mfcLoop stack (stack.length + 2) 2 []
            | _, _ => mfcLoop stack (stack.length + 2) 2 []
          | .error e, _ => .error e
          | _, .error e => .error e

/-- Reduction rule 1 of parse_expression: a number token on top of the stack
becomes a NumberNode of length 1. -/
def red_number : List StackItem → Option (List StackItem)
  | ⟨.tok t, _⟩ :: rest =>
      if t.kind = .number then some (⟨.node (.NumberNode t), 1⟩ :: rest) else none
  | _ => none

/-- Reduction rule 2 of parse_expression: an identifier token on top of the
stack becomes an IdentifierNode of length 1. -/
def red_identifier : List StackItem → Option (List StackItem)
  | ⟨.tok t, _⟩ :: rest =>
      if t.kind = .identifier then
        some (⟨.node (.IdentifierNode t), 1⟩ :: rest)
      else none
  | _ => none

/-- Reduction rule 3 of parse_expression: expr, binary operator, expr on top
of the stack reduces to a BinaryOperatorNode, unless the next unconsumed
token is a strictly higher precedence binary operator, or opens a function
call, or both this operator and the next token are assignment operators. -/
def red_binary (tokens : List Token) (i : Nat) :
    List StackItem → Option (List StackItem)
  | ⟨.node r, rl⟩ :: ⟨.tok op, ol⟩ :: ⟨.node l, ll⟩ :: rest =>
      if (binary_operators op.kind).isSome
          && !(nextTokenSat tokens i fun k => precGT k op.kind)
          && !(nextTokenSat tokens i fun k => decide (k = .open_paren))
          && !(isAssignmentOp op.kind && nextTokenSat tokens i isAssignmentOp)
      then some (⟨.node (.BinaryOperatorNode l op r), ll + ol + rl⟩ :: rest)
      else none
  | _ => none

/-- Reduction rule 4 of parse_expression: a unary operator token directly
below an expression node reduces to the corresponding node, unless the next
unconsumed token opens a function call. The resulting length is one plus the
length of the operand, as in the source. -/
def red_unary (tokens : List Token) (i : Nat) :
    List StackItem → Option (List StackItem)
  | ⟨.node e, el⟩ :: ⟨.tok op, _⟩ :: rest =>
      match unary_ops op.kind with
      | some ctor =>
          if !(nextTokenSat tokens i fun k => decide (k = .open_paren))
          then some (⟨.node (ctor e op), 1 + el⟩ :: rest)
          else none
      | none => none
  | _ => none

/-- Reduction rule 6 of parse_expression: open paren, expr, close paren on
top of the stack reduces to a ParenExprNode of length expr plus two. -/
def red_paren : List StackItem → Option (List StackItem)
  | ⟨.tok cp, _⟩ :: ⟨.node e, el⟩ :: ⟨.tok op, _⟩ :: rest =>
      if cp.kind = .close_paren ∧ op.kind = .open_paren then
        some (⟨.node (.ParenExprNode e), el + 2⟩ :: rest)
      else none
  | _ => none

/-- The function-call reduction of parse_expression: delete the consumed
stack entries and push a FunctionCallNode whose length is the token count of
the deleted entries. -/
def reduceCall (stack : List StackItem) (fn : Node) (args : List Node) :
    List StackItem :=
  let num_delete := if args.isEmpty then 3 else 2 + 2 * args.length
  let size := ((stack.take num_delete).map StackItem.length).sum
  ⟨.node (.FunctionCallNode fn args), size⟩ :: stack.drop num_delete

/-- True iff the token can extend an expression, per the stop condition of
the source shift-reduce loop. -/
def canShift (t : Token) : Bool :=
  decide (t.kind = .number) || decide (t.kind = .identifier)
    || decide (t.kind = .open_paren) || decide (t.kind = .close_paren)
    || decide (t.kind = .comma) || decide (t.kind = .amp)
    || (binary_operators t.kind).isSome

/-- The shift-reduce loop of source parse_expression. The stack is stored
top-first. Each iteration applies the first applicable reduction, or shifts
the next token, or stops, exactly in the source order of the rule checks.
Returns the final stack and input position. -/
def exprLoop (tokens : List Token) : Nat → List StackItem → Nat →
    Except Exc (List StackItem × Nat)
  | 0, _, _ => .error .fuelOut
  | fuel + 1, stack, i =>
    match red_number stack with
    | some stack2 => exprLoop tokens fuel stack2 i
    | none =>
    match red_identifier stack with
    | some stack2 => exprLoop tokens fuel stack2 i
    | none =>
    match red_binary tokens i stack with
    | some stack2 => exprLoop tokens fuel stack2 i
    | none =>
    match red_unary tokens i stack with
    | some stack2 => exprLoop tokens fuel stack2 i
    | none =>
    match match_function_call stack with
    | .error e => .error e
    | .ok (some (fn, args)) => exprLoop tokens fuel (reduceCall stack fn args) i
    | .ok none =>
    match red_paren stack with
    | some stack2 => exprLoop tokens fuel stack2 i
    | none =>
      if i = tokens.length then .ok (stack, i)
      else
        match tokens[i]? with
        | none => .error .indexError
        | some t =>
            if canShift t then exprLoop tokens fuel (⟨.tok t, 1⟩ :: stack) (i + 1)
            else .ok (stack, i)

/-- Fuel bound for the shift-reduce loop, ample for any input consumed by
the loop (each token is shifted at most once and every reduction strictly
shrinks a measure bounded by a linear function of the shifts). -/
def exprFuel (tokens : List Token) : Nat := 4 * tokens.length + 8

/-- Source parse_expression: run the shift-reduce loop from an empty stack;
succeed iff the bottom stack entry is an expression node, returning it and
the index just past its tokens, and otherwise raise an expected-expression
error of kind GOT anchored at the starting index. -/
def parse_expression (tokens : List Token) (index : Nat) :
    Except Exc (Node × Nat) :=
  match exprLoop tokens (exprFuel tokens) [] index with
  | .error e => .error e
  | .ok (stack, _) =>
    match stack.getLast? with
    | some it =>
      match it.item with
      | .node n => .ok (n, index + it.length)
      | .tok _ => .error (.perr ⟨msgExpectedExpression, index, .GOT⟩)
    | none => .error (.perr ⟨msgExpectedExpression, index, .GOT⟩)

/-- Source dictionary type_tokens mapping base-type keywords to ctypes. -/
def typeTokenCType : TokenKind → Option CType
  | .void_kw => some (.base .void true)
  | .bool_kw => some (.base .bool_t true)
  | .char_kw => some (.base .char true)
  | .short_kw => some (.base .short true)
  | .int_kw => some (.base .integer true)
  | .long_kw => some (.base .longint true)
  | _ => none

/-- Source _expect_type_name: try each base-type keyword in the fixed order
of the type_tokens dictionary, logging the failure of every attempt but the
last, whose failure is raised. -/
def _expect_type_name (tokens : List Token) (index : Nat) (best : BestErr) :
    Except Exc Nat × BestErr :=
  match _match_token tokens index .void_kw msgExpectedTypeName .GOT with
  | .ok i => (.ok i, best)
  | .error e =>
  let best := _log_error best e
  match _match_token tokens index .bool_kw msgExpectedTypeName .GOT with
  | .ok i => (.ok i, best)
  | .error e =>
  let best := _log_error best e
  match _match_token tokens index .char_kw msgExpectedTypeName .GOT with
  | .ok i => (.ok i, best)
  | .error e =>
  let best := _log_error best e
  match _match_token tokens index .short_kw msgExpectedTypeName .GOT with
  | .ok i => (.ok i, best)
  | .error e =>
  let best := _log_error best e
  match _match_token tokens index .int_kw msgExpectedTypeName .GOT with
  | .ok i => (.ok i, best)
  | .error e =>
  let best := _log_error best e
  match _match_token tokens index .long_kw msgExpectedTypeName .GOT with
  | .ok i => (.ok i, best)
  | .error e => (.error (.perr e), best)

/-- The pointer-star loop of source parse_declaration, by countdown on the
number of remaining tokens: when the countdown is zero the index is past the
end of the list, where the source loop condition is false as well. -/
def parseStarsGo (tokens : List Token) : Nat → Nat → CType → CType × Nat
  | 0, index, ctype => (ctype, index)
  | n + 1, index, ctype =>
    if _next_token_is tokens index .star then
      parseStarsGo tokens n (index + 1) (.PointerCType ctype)
    else (ctype, index)

/-- The pointer-star loop of source parse_declaration: wrap the running type
in PointerCType once per star token. -/
def parseStars (tokens : List Token) (index : Nat) (ctype : CType) :
    CType × Nat :=
  parseStarsGo tokens (tokens.length - index) index ctype

/-- Digit-list accumulator for pyInt. -/
def pyIntGo : List Char → Nat → Option Nat
  | [], acc => some acc
  | c :: cs, acc =>
      if c.isDigit then pyIntGo cs (acc * 10 + (c.toNat - 48)) else none

/-- Models the Python int() conversion applied to a token content string: the
numeric value of a digit string, and failure (a ValueError) on an empty
string or any non-digit character. -/
def pyInt (s : String) : Option Nat :=
  match s.toList with
  | [] => none
  | cs => pyIntGo cs 0

/-- The tail of source parse_declaration after the semicolon check: build the
declaration node. -/
def declSemi (tokens : List Token) (index : Nat) (ctype : CType)
    (variable_name : Token) : Except Exc (Node × Nat) :=
  match _expect_semicolon tokens index with
  | .error e => .error (.perr e)
  | .ok index2 => .ok (.DeclarationNode variable_name ctype, index2)

/-- The part of source parse_declaration after the identifier: consume an
array suffix only when an opening square bracket is immediately followed by a
number token and a closing square bracket, then expect a semicolon and build
the node. The int conversion of the number content raises ValueError on
non-numeric content, as in Python. -/
def parse_decl_array_semi (tokens : List Token) (index : Nat) (ctype : CType)
    (variable_name : Token) : Except Exc (Node × Nat) :=
  if _next_token_is tokens index .open_sq_brack
      && _next_token_is tokens (index + 1) .number
      && _next_token_is tokens (index + 2) .close_sq_brack then
    match tokens[index + 1]? with
    | none => .error .indexError
    | some numTok =>
      match pyInt numTok.content with
      | none => .error .valueError
      | some n => declSemi tokens (index + 3) (.ArrayCType ctype n) variable_name
  else declSemi tokens index ctype variable_name

/-- Source parse_declaration: optional signed or unsigned keyword, a
mandatory base-type keyword, zero or more stars, a mandatory identifier, an
optional array suffix, and a mandatory semicolon. -/
def parse_declaration (tokens : List Token) (index : Nat) (best : BestErr) :
    Except Exc (Node × Nat) × BestErr :=
  let su : Bool × Nat :=
    if _next_token_is tokens index .signed_kw then (true, index + 1)
    else if _next_token_is tokens index .unsigned_kw then (false, index + 1)
    else (true, index)
  let signed := su.1
  let index := su.2
  match _expect_type_name tokens index best with
  | (.error e, best) => (.error e, best)
  | (.ok index1, best) =>
    match tokens[index1 - 1]? with
    | none => (.error .indexError, best)
    | some typeTok =>
      match typeTokenCType typeTok.kind with
      | none => (.error .keyError, best)
      | some ctype0 =>
        let ctype1 := if signed then ctype0 else to_unsigned ctype0
        let sr := parseStars tokens index1 ctype1
        match _match_token tokens sr.2 .identifier msgExpectedIdentifier .AFTER with
        | .error e => (.error (.perr e), best)
        | .ok index3 =>
          match tokens[index3 - 1]? with
          | none => (.error .indexError, best)
          | some variable_name =>
            (parse_decl_array_semi tokens index3 sr.1 variable_name, best)

/-- Source parse_return: return keyword, expression, semicolon. -/
def parse_return (tokens : List Token) (index : Nat) :
    Except Exc (Node × Nat) :=
  match _match_token tokens index .return_kw msgExpectedReturnKw .GOT with
  | .error e => .error (.perr e)
  | .ok index1 =>
    match tokens[index1 - 1]? with
    | none => .error .indexError
    | some return_kw_tok =>
      match parse_expression tokens index1 with
      | .error e => .error e
      | .ok (node, index2) =>
        match _expect_semicolon tokens index2 with
        | .error e => .error (.perr e)
        | .ok index3 => .ok (.ReturnNode node return_kw_tok, index3)

/-- Source parse_expr_statement: expression then semicolon. -/
def parse_expr_statement (tokens : List Token) (index : Nat) :
    Except Exc (Node × Nat) :=
  match parse_expression tokens index with
  | .error e => .error e
  | .ok (node, index1) =>
    match _expect_semicolon tokens index1 with
    | .error e => .error (.perr e)
    | .ok index2 => .ok (.ExprStatementNode node, index2)

/-- The block-item loop of source parse_compound_statement, parameterized by
the statement sub-parser ps to break the mutual recursion of the source:
repeatedly try a statement and then a declaration, logging each failure;
stop when both fail. The fuel argument bounds the loop iterations and is an
embedding artifact. -/
def blockItemsWith (tokens : List Token)
    (ps : Nat → BestErr → Except Exc (Node × Nat) × BestErr) :
    Nat → Nat → BestErr → Except Exc (List Node × Nat) × BestErr
  | 0, _, best => (.error .fuelOut, best)
  | fuel + 1, index, best =>
    match ps index best with
    | (.ok (node, index1), best) =>
      (match blockItemsWith tokens ps fuel index1 best with
       | (.ok (nodes, index2), best) => (.ok (node :: nodes, index2), best)
       | r => r)
    | (.error (.perr e), best) =>
      let best := _log_error best e
      (match parse_declaration tokens index best with
       | (.ok (node, index1), best) =>
         (match blockItemsWith tokens ps fuel index1 best with
          | (.ok (nodes, index2), best) => (.ok (node :: nodes, index2), best)
          | r => r)
       | (.error (.perr e2), best) =>
         let best := _log_error best e2
         (.ok ([], index), best)
       | (.error er, best) => (.error er, best))
    | (.error er, best) => (.error er, best)

/-- Source parse_compound_statement, parameterized by the statement
sub-parser: opening brace, block items, closing brace. -/
def compoundWith (tokens : List Token)
    (ps : Nat → BestErr → Except Exc (Node × Nat) × BestErr)
    (fuel : Nat) (index : Nat) (best : BestErr) :
    Except Exc (Node × Nat) × BestErr :=
  match _match_token tokens index .open_brack msgExpectedLBrace .GOT with
  | .error e => (.error (.perr e), best)
  | .ok index1 =>
    match blockItemsWith tokens ps fuel index1 best with
    | (.error e, best) => (.error e, best)
    | (.ok (nodes, index2), best) =>
      match _match_token tokens index2 .close_brack msgExpectedRBrace .GOT with
      | .error e => (.error (.perr e), best)
      | .ok index3 => (.ok (.CompoundNode nodes, index3), best)

/-- Source parse_if_statement, parameterized by the statement sub-parser:
if keyword, parenthesized condition, then one statement as body. -/
def ifWith (tokens : List Token)
    (ps : Nat → BestErr → Except Exc (Node × Nat) × BestErr)
    (index : Nat) (best : BestErr) : Except Exc (Node × Nat) × BestErr :=
  match _match_token tokens index .if_kw msgExpectedIfKw .GOT with
  | .error e => (.error (.perr e), best)
  | .ok index1 =>
    match _match_token tokens index1 .open_paren msgExpectedLParen .AFTER with
    | .error e => (.error (.perr e), best)
    | .ok index2 =>
      match parse_expression tokens index2 with
      | .error e => (.error e, best)
      | .ok (conditional, index3) =>
        match _match_token tokens index3 .close_paren msgExpectedRParen .AFTER with
        | .error e => (.error (.perr e), best)
        | .ok index4 =>
          match ps index4 best with
          | (.ok (statement, index5), best) =>
              (.ok (.IfStatementNode conditional statement, index5), best)
          | r => r

/-- Source parse_statement: try compound, return, if statements in order,
logging each ParserError and moving on; the expression-statement attempt is
last and its outcome propagates. Only ParserError is caught. -/
def parse_statement (tokens : List Token) : Nat → Nat → BestErr →
    Except Exc (Node × Nat) × BestErr
  | 0, _, best => (.error .fuelOut, best)
  | fuel + 1, index, best =>
    match compoundWith tokens (fun i b => parse_statement tokens fuel i b)
        fuel index best with
    | (.error (.perr e), best) =>
      let best := _log_error best e
      match parse_return tokens index with
      | .ok r => (.ok r, best)
      | .error (.perr e) =>
        let best := _log_error best e
        match ifWith tokens (fun i b => parse_statement tokens fuel i b)
            index best with
        | (.error (.perr e), best) =>
          let best := _log_error best e
          (parse_expr_statement tokens index, best)
        | r => r
      | .error e => (.error e, best)
    | r => r

/-- Source parse_compound_statement with the statement sub-parser plugged
in. -/
def parse_compound_statement (tokens : List Token) (fuel : Nat) (index : Nat)
    (best : BestErr) : Except Exc (Node × Nat) × BestErr :=
  compoundWith tokens (fun i b => parse_statement tokens fuel i b)
    fuel index best

/-- Source parse_if_statement with the statement sub-parser plugged in. -/
def parse_if_statement (tokens : List Token) (fuel : Nat) (index : Nat)
    (best : BestErr) : Except Exc (Node × Nat) × BestErr :=
  ifWith tokens (fun i b => parse_statement tokens fuel i b) index best

/-- Source parse_main: the fixed int main ( ) header, each mismatch an AT
error, then a compound statement wrapped in a MainNode. -/
def parse_main (tokens : List Token) (fuel : Nat) (index : Nat)
    (best : BestErr) : Except Exc (Node × Nat) × BestErr :=
  match _match_token tokens index .int_kw msgExpectedMain .AT with
  | .error e => (.error (.perr e), best)
  | .ok index1 =>
    match _match_token tokens index1 .main msgExpectedMain .AT with
    | .error e => (.error (.perr e), best)
    | .ok index2 =>
      match _match_token tokens index2 .open_paren msgExpectedMain .AT with
      | .error e => (.error (.perr e), best)
      | .ok index3 =>
        match _match_token tokens index3 .close_paren msgExpectedMain .AT with
        | .error e => (.error (.perr e), best)
        | .ok index4 =>
          match parse_compound_statement tokens fuel index4 best with
          | (.ok (node, index5), best) => (.ok (.MainNode node, index5), best)
          | r => r

/-- Fuel bound for the statement-level recursion, ample for any input (each
fuel-consuming descent makes progress through the token list). -/
def stmtFuel (tokens : List Token) : Nat := tokens.length + 10

/-- Source Parser.parse: attempt the top-level parse; on a ParserError, fold
it into the best-error tracker and deliver the tracked best error to the
external collector, producing no AST. On success deliver a separate
unexpected-token diagnostic when tokens remain, and return the root node
either way. The result pairs the returned root (or none) with the list of
diagnostics delivered to the external collector; an uncaught runtime
exception (IndexError and friends) escapes as an error value. -/
def parse (tokens : List Token) :
    Except Exc (Option Node × List ParserError) :=
  let p := parse_main tokens (stmtFuel tokens) 0 none
  match p.1 with
  | .ok (node, index) =>
    if tokens.drop index = [] then .ok (some node, [])
    else .ok (some node, [⟨msgUnexpectedToken, index, .AT⟩])
  | .error (.perr e) =>
    (match _log_error p.2 e with
     | some b => .ok (none, [b])
     | none => .ok (none, []))
  | .error er => .error er

/-- Concrete tokens used by the theorems below. -/
def tokInt : Token := ⟨.int_kw, "int"⟩
def tokMain : Token := ⟨.main, "main"⟩
def tokLP : Token := ⟨.open_paren, "("⟩
def tokRP : Token := ⟨.close_paren, ")"⟩
def tokLB : Token := ⟨.open_brack, "\x7b"⟩
def tokRB : Token := ⟨.close_brack, "\x7d"⟩
def tokLSq : Token := ⟨.open_sq_brack, "["⟩
def tokRSq : Token := ⟨.close_sq_brack, "]"⟩
def tokSemi : Token := ⟨.semicolon, ";"⟩
def tokComma : Token := ⟨.comma, ","⟩
def tokPlus : Token := ⟨.plus, "+"⟩
def tokStar : Token := ⟨.star, "*"⟩
def tokEq : Token := ⟨.equals, "="⟩
def tok1 : Token := ⟨.number, "1"⟩
def tok2 : Token := ⟨.number, "2"⟩
def tok3 : Token := ⟨.number, "3"⟩
def tok4 : Token := ⟨.number, "4"⟩
def tok5 : Token := ⟨.number, "5"⟩
def tokA : Token := ⟨.identifier, "a"⟩
def tokB : Token := ⟨.identifier, "b"⟩
def tokF : Token := ⟨.identifier, "f"⟩
def tokX : Token := ⟨.identifier, "x"⟩

/-- Token sequence of the program int main ( ) then a block containing the
parenthesized expression statement ( 1 ) ; -/
def toksParenStmt : List Token :=
  [tokInt, tokMain, tokLP, tokRP, tokLB, tokLP, tok1, tokRP, tokSemi, tokRB]

/-- Token sequence of the program int main ( ) with an empty block, followed
by a leftover identifier token. -/
def toksLeftover : List Token :=
  [tokInt, tokMain, tokLP, tokRP, tokLB, tokRB, tokX]

/-- k nested PointerCType wrappers around a type, innermost first, exactly as
the star loop of parse_declaration builds them. -/
def nestPtr : Nat → CType → CType
  | 0, c => c
  | k + 1, c => nestPtr k (.PointerCType c)

/-- Token sequence of a declaration: a base-type keyword, k stars, the
identifier a, and a semicolon. -/
def declToks (bk : TokenKind) (k : Nat) : List Token :=
  ⟨bk, ""⟩ :: (List.replicate k tokStar ++ [tokA, tokSemi])

/-- Sample diagnostics for the witness of the best-error invariant. -/
def peHigh : ParserError := ⟨msgExpectedSemicolon, 2, .AFTER⟩
def peLow : ParserError := ⟨msgExpectedExpression, 1, .GOT⟩

theorem next_token_is_iff (tokens : List Token) (i : Nat) (k : TokenKind) :
    _next_token_is tokens i k = true ↔
      (tokens[i]?).map Token.kind = some k := by
  unfold _next_token_is
  cases h : tokens[i]? with
  | none => simp
  | some t => simp

theorem getElem?_replicate_append_lt {α : Type} (a : α) (suf : List α) :
    ∀ (k j : Nat), j < k → (List.replicate k a ++ suf)[j]? = some a := by
  intro k
  induction k with
  | zero => intro j hj; omega
  | succ k ih =>
    intro j hj
    rw [List.replicate_succ, List.cons_append]
    cases j with
    | zero => simp
    | succ j =>
      rw [List.getElem?_cons_succ]
      exact ih j (by omega)

theorem getElem?_replicate_append {α : Type} (a : α) (suf : List α) :
    ∀ (k m : Nat), (List.replicate k a ++ suf)[k + m]? = suf[m]? := by
  intro k
  induction k with
  | zero => intro m; simp
  | succ k ih =>
    intro m
    rw [List.replicate_succ, List.cons_append]
    have harith : k + 1 + m = (k + m) + 1 := by omega
    rw [harith, List.getElem?_cons_succ]
    exact ih m

theorem declToks_get_star (bk : TokenKind) (k j : Nat) (hj : j < k) :
    (declToks bk k)[1 + j]? = some tokStar := by
  unfold declToks
  have harith : 1 + j = j + 1 := by omega
  rw [harith, List.getElem?_cons_succ]
  exact getElem?_replicate_append_lt tokStar [tokA, tokSemi] k j hj

theorem declToks_get_ident (bk : TokenKind) (k : Nat) :
    (declToks bk k)[1 + k]? = some tokA := by
  unfold declToks
  have harith : 1 + k = k + 1 := by omega
  rw [harith, List.getElem?_cons_succ]
  have h0 := getElem?_replicate_append tokStar [tokA, tokSemi] k 0
  simpa using h0

theorem declToks_get_semi (bk : TokenKind) (k : Nat) :
    (declToks bk k)[1 + k + 1]? = some tokSemi := by
  unfold declToks
  have harith : 1 + k + 1 = (k + 1) + 1 := by omega
  rw [harith, List.getElem?_cons_succ]
  rw [getElem?_replicate_append tokStar [tokA, tokSemi] k 1]
  rfl

theorem parseStarsGo_eq :
    ∀ (n k : Nat) (tokens : List Token) (index : Nat) (c : CType),
    k ≤ n →
    (∀ j, j < k → (tokens[index + j]?).map Token.kind = some .star) →
    (tokens[index + k]?).map Token.kind ≠ some .star →
    parseStarsGo tokens n index c = (nestPtr k c, index + k) := by
  intro n
  induction n with
  | zero =>
    intro k tokens index c hk _ _
    have hk0 : k = 0 := by omega
    subst hk0
    simp [parseStarsGo, nestPtr]
  | succ n ih =>
    intro k tokens index c hk hstars hstop
    cases k with
    | zero =>
      have hfalse : _next_token_is tokens index .star = false := by
        rw [Bool.eq_false_iff, Ne, next_token_is_iff]
        simpa using hstop
      simp [parseStarsGo, hfalse, nestPtr]
    | succ j =>
      have htrue : _next_token_is tokens index .star = true := by
        rw [next_token_is_iff]
        simpa using hstars 0 (by omega)
      rw [parseStarsGo, htrue]
      simp only [if_true]
      rw [ih j tokens (index + 1) (.PointerCType c) (by omega) ?_ ?_]
      · have harith : index + 1 + j = index + (j + 1) := by omega
        rw [harith]
        rfl
      · intro m hm
        have harith : index + 1 + m = index + (m + 1) := by omega
        rw [harith]
        exact hstars (m + 1) (by omega)
      · have harith : index + 1 + j = index + (j + 1) := by omega
        rw [harith]
        exact hstop

theorem parseStars_eq (k : Nat) (tokens : List Token) (index : Nat) (c : CType)
    (hstars : ∀ j, j < k → (tokens[index + j]?).map Token.kind = some .star)
    (hstop : (tokens[index + k]?).map Token.kind ≠ some .star) :
    parseStars tokens index c = (nestPtr k c, index + k) := by
  unfold parseStars
  apply parseStarsGo_eq _ k tokens index c ?_ hstars hstop
  cases k with
  | zero => omega
  | succ j =>
    have hj := hstars j (by omega)
    have hsome : (tokens[index + j]?).isSome := by
      cases h : tokens[index + j]? with
      | none => rw [h] at hj; simp at hj
      | some t => simp
    have hlt : index + j < tokens.length := by
      by_contra hge
      rw [List.getElem?_eq_none (by omega)] at hsome
      simp at hsome
    omega

theorem decl_general (bk : TokenKind) (ct : CType) (k : Nat) (best : BestErr)
    (hns : bk ≠ .signed_kw) (hnu : bk ≠ .unsigned_kw)
    (hty : typeTokenCType bk = some ct)
    (h1 : (_expect_type_name (declToks bk k) 0 best).1 = .ok 1) :
    (parse_declaration (declToks bk k) 0 best).1 =
      .ok (.DeclarationNode tokA (nestPtr k ct), k + 3) := by
  have hzero : (declToks bk k)[0]? = some ⟨bk, ""⟩ := by
    unfold declToks
    exact List.getElem?_cons_zero
  have hident := declToks_get_ident bk k
  have hsemi := declToks_get_semi bk k
  have hstars : ∀ j, j < k →
      ((declToks bk k)[1 + j]?).map Token.kind = some .star := by
    intro j hj
    rw [declToks_get_star bk k j hj]
    rfl
  have hstop : ((declToks bk k)[1 + k]?).map Token.kind ≠ some .star := by
    rw [hident]
    simp [tokA]
  have hps := parseStars_eq k (declToks bk k) 1 ct hstars hstop
  have harith : 1 + k + 1 + 1 = k + 3 := by omega
  have hp : _expect_type_name (declToks bk k) 0 best =
      ((_expect_type_name (declToks bk k) 0 best).1,
       (_expect_type_name (declToks bk k) 0 best).2) := rfl
  unfold parse_declaration
  simp only [_next_token_is, hzero, hns, hnu, decide_False, Bool.false_eq_true,
    if_false, ite_false]
  rw [hp, h1]
  simp [hzero, hty, hps, _match_token, hident, hsemi, parse_decl_array_semi,
    declSemi, _expect_semicolon, tokA, tokSemi, harith]
  intro hcontra
  rw [next_token_is_iff, hsemi] at hcontra
  simp [tokSemi] at hcontra

theorem log_fold_inv (l : List ParserError) :
    ∀ (acc : BestErr) (b : ParserError),
    List.foldl _log_error acc l = some b →
    (∀ a, acc = some a → a.amount_parsed ≤ b.amount_parsed) ∧
    (∀ e ∈ l, e.amount_parsed ≤ b.amount_parsed) ∧
    ((∃ l1 l2, l = l1 ++ b :: l2 ∧ ∀ e ∈ l2, e.amount_parsed < b.amount_parsed)
      ∨ (acc = some b ∧ ∀ e ∈ l, e.amount_parsed < b.amount_parsed)) := by
  induction l with
  | nil =>
    intro acc b h
    simp only [List.foldl_nil] at h
    subst h
    refine ⟨?_, ?_, ?_⟩
    · intro a ha
      injection ha with ha
      subst ha
      exact le_refl _
    · intro e he
      simp at he
    · right
      exact ⟨rfl, by simp⟩
  | cons x xs ih =>
    intro acc b h
    rw [List.foldl_cons] at h
    obtain ⟨hAcc, hXs, hCase⟩ := ih (_log_error acc x) b h
    have hx : x.amount_parsed ≤ b.amount_parsed := by
      cases acc with
      | none => exact hAcc x rfl
      | some a =>
        by_cases hle : a.amount_parsed ≤ x.amount_parsed
        · exact hAcc x (by simp [_log_error, hle])
        · have hab : a.amount_parsed ≤ b.amount_parsed :=
            hAcc a (by simp [_log_error, hle])
          omega
    have hAccOrig : ∀ a, acc = some a → a.amount_parsed ≤ b.amount_parsed := by
      intro a ha
      subst ha
      by_cases hle : a.amount_parsed ≤ x.amount_parsed
      · have := hAcc x (by simp [_log_error, hle])
        omega
      · exact hAcc a (by simp [_log_error, hle])
    refine ⟨hAccOrig, ?_, ?_⟩
    · intro e he
      rcases List.mem_cons.mp he with rfl | hm
      · exact hx
      · exact hXs e hm
    · rcases hCase with ⟨l1, l2, heq, hlt⟩ | ⟨hacc, hstrict⟩
      · left
        exact ⟨x :: l1, l2, by rw [heq, List.cons_append], hlt⟩
      · cases acc with
        | none =>
          have hxb : x = b := by
            simpa [_log_error] using hacc
          subst hxb
          left
          exact ⟨[], xs, rfl, hstrict⟩
        | some a =>
          by_cases hle : a.amount_parsed ≤ x.amount_parsed
          · have hxb : x = b := by
              simpa [_log_error, hle] using hacc
            subst hxb
            left
            exact ⟨[], xs, rfl, hstrict⟩
          · have hab : a = b := by
              simpa [_log_error, hle] using hacc
            subst hab
            right
            refine ⟨rfl, ?_⟩
            intro e he
            rcases List.mem_cons.mp he with rfl | hm
            · omega
            · exact hstrict e hm

/-- C1: for the token sequence f ( x ), parse_expression returns a
FunctionCall node with callee Identifier f and argument list Identifier x,
consuming all four tokens, as the claim states. For the token sequence
( x ), however, the claim fails on the code: match_function_call walks off
the bottom of the three-entry stack (the source evaluates stack[-4]) and
raises an IndexError that the except KeyError handler does not catch, so
parse_expression raises IndexError out of the call instead of returning a
ParenExpr node. -/
theorem claim1_call_ok_paren_crashes :
    parse_expression [tokF, tokLP, tokX, tokRP] 0 =
      .ok (.FunctionCallNode (.IdentifierNode tokF) [.IdentifierNode tokX], 4) ∧
    parse_expression [tokLP, tokX, tokRP] 0 = .error .indexError :=
  ⟨rfl, rfl⟩

/-- C2: Parser.parse does not return normally on every token list: on the
tokens of the program int main ( ) with the block containing the statement
( 1 ) ; the uncaught IndexError raised inside match_function_call escapes
the whole parse, which therefore neither returns an AST nor the absence
value, and delivers nothing to the external sink. -/
theorem claim2_parse_raises_index_error :
    parse toksParenStmt = .error .indexError := rfl

/-- C3 counterexample: on the token sequence x followed by a stray closing
parenthesis, the shift-reduce loop stops with a stack of two items (the
shifted close-paren token on top of the Identifier node), which is not a
stack reduced to exactly one expression node, and yet parse_expression
succeeds, returning the bottom node, refuting the claim that in every such
case an expected-expression error is raised. -/
theorem claim3_counterexample :
    exprLoop [tokX, tokRP] (exprFuel [tokX, tokRP]) [] 0 =
      .ok ([⟨.tok tokRP, 1⟩, ⟨.node (.IdentifierNode tokX), 1⟩], 2) ∧
    parse_expression [tokX, tokRP] 0 = .ok (.IdentifierNode tokX, 1) :=
  ⟨rfl, rfl⟩

/-- C3 amended: when the shift-reduce loop of parse_expression stops, the
call succeeds if and only if the final stack is nonempty and its bottom
entry is an expression node; in that case it returns that node and the
index just past its tokens, and in every other case it raises an
expected-expression error of kind GOT anchored at the starting index.
Extra entries above the bottom node are allowed and ignored. -/
theorem claim3_amended (tokens : List Token) (index : Nat)
    (stack : List StackItem) (i2 : Nat)
    (h : exprLoop tokens (exprFuel tokens) [] index = .ok (stack, i2)) :
    (∀ n len, stack.getLast? = some ⟨.node n, len⟩ →
      parse_expression tokens index = .ok (n, index + len)) ∧
    (∀ t len, stack.getLast? = some ⟨.tok t, len⟩ →
      parse_expression tokens index =
        .error (.perr ⟨msgExpectedExpression, index, .GOT⟩)) ∧
    (stack.getLast? = none →
      parse_expression tokens index =
        .error (.perr ⟨msgExpectedExpression, index, .GOT⟩)) := by
  refine ⟨?_, ?_, ?_⟩
  · intro n len hg
    unfold parse_expression
    rw [h]
    simp [hg]
  · intro t len hg
    unfold parse_expression
    rw [h]
    simp [hg]
  · intro hg
    unfold parse_expression
    rw [h]
    simp [hg]

/-- C3 witness: the amended theorem applied to the single number token 4,
where the loop stops with the singleton stack holding the Number node. -/
theorem claim3_witness :
    parse_expression [tok4] 0 = .ok (.NumberNode tok4, 0 + 1) :=
  (claim3_amended [tok4] 0 [⟨.node (.NumberNode tok4), 1⟩] 1 rfl).1
    (.NumberNode tok4) 1 rfl

/-- C4 counterexample: on the tokens of int main ( ) with an empty block
followed by a leftover identifier, parse delivers the unexpected-token
diagnostic of kind AT anchored at the first leftover token (index 6) but
still returns the Main node: the overall parse does not fail and an AST is
produced, refuting the claim that no AST is produced. -/
theorem claim4_counterexample :
    parse toksLeftover =
      .ok (some (.MainNode (.CompoundNode [])),
        [⟨msgUnexpectedToken, 6, .AT⟩]) ∧
    ¬ ∃ ds, parse toksLeftover = .ok (none, ds) := by
  refine ⟨rfl, ?_⟩
  rintro ⟨ds, hds⟩
  rw [show parse toksLeftover =
      .ok (some (.MainNode (.CompoundNode [])),
        [⟨msgUnexpectedToken, 6, .AT⟩]) from rfl] at hds
  simp at hds

/-- C4 amended: if parse_main succeeds but tokens remain unconsumed after
the parsed program, parse still returns the parsed Main node (an AST is
produced) and delivers exactly one separate unexpected-token diagnostic of
kind AT, anchored at the first leftover token, to the sink, without going
through the best-error ranking. -/
theorem claim4_amended (tokens : List Token) (node : Node) (index : Nat)
    (h : (parse_main tokens (stmtFuel tokens) 0 none).1 = .ok (node, index))
    (hleft : tokens.drop index ≠ []) :
    parse tokens = .ok (some node, [⟨msgUnexpectedToken, index, .AT⟩]) := by
  unfold parse
  simp [h, hleft]

/-- C4 witness: the amended theorem applied to the leftover-token program. -/
theorem claim4_witness :
    parse toksLeftover =
      .ok (some (.MainNode (.CompoundNode [])),
        [⟨msgUnexpectedToken, 6, .AT⟩]) :=
  claim4_amended toksLeftover (.MainNode (.CompoundNode [])) 6 rfl (by decide)

/-- C5: for every sequence of errors folded through _log_error starting from
the empty tracker, the retained best error has the greatest amount_parsed
among all errors logged so far, and it is the most recently logged among
those tied for the greatest amount_parsed: the log decomposes around the
retained error with every strictly later entry having strictly smaller
amount_parsed. -/
theorem claim5_best_error (l : List ParserError) (b : ParserError)
    (h : List.foldl _log_error none l = some b) :
    (∀ e ∈ l, e.amount_parsed ≤ b.amount_parsed) ∧
    ∃ l1 l2, l = l1 ++ b :: l2 ∧
      ∀ e ∈ l2, e.amount_parsed < b.amount_parsed := by
  obtain ⟨-, hXs, hCase⟩ := log_fold_inv l none b h
  rcases hCase with hc | ⟨hacc, -⟩
  · exact ⟨hXs, hc⟩
  · exact absurd hacc (by simp)

/-- C5 witness: logging an error with amount_parsed 2 and then one with
amount_parsed 1 retains the first. -/
theorem claim5_witness :
    (∀ e ∈ [peHigh, peLow], e.amount_parsed ≤ peHigh.amount_parsed) ∧
    ∃ l1 l2, [peHigh, peLow] = l1 ++ peHigh :: l2 ∧
      ∀ e ∈ l2, e.amount_parsed < peHigh.amount_parsed :=
  claim5_best_error [peHigh, peLow] peHigh rfl

/-- C6: the token sequence 1 + 2 * 3 parses to the plus node with the star
node as its right child, and the source precedence table assigns 12 to the
multiplicative operators, 11 to the additive operator, 8 to equality and
inequality, and 1 to assignment. -/
theorem claim6_precedence :
    parse_expression [tok1, tokPlus, tok2, tokStar, tok3] 0 =
      .ok (.BinaryOperatorNode (.NumberNode tok1) tokPlus
        (.BinaryOperatorNode (.NumberNode tok2) tokStar (.NumberNode tok3)),
        5) ∧
    binary_operators .star = some 12 ∧ binary_operators .slash = some 12 ∧
    binary_operators .plus = some 11 ∧ binary_operators .twoequals = some 8 ∧
    binary_operators .notequal = some 8 ∧ binary_operators .equals = some 1 :=
  ⟨rfl, rfl, rfl, rfl, rfl, rfl, rfl⟩

/-- C7: assignment is right-associative: the token sequence a = b = 5 parses
to an assignment node whose right child is the inner assignment of b to 5. -/
theorem claim7_right_assoc :
    parse_expression [tokA, tokEq, tokB, tokEq, tok5] 0 =
      .ok (.BinaryOperatorNode (.IdentifierNode tokA) tokEq
        (.BinaryOperatorNode (.IdentifierNode tokB) tokEq (.NumberNode tok5)),
        5) := rfl

/-- C8: function-call arguments keep left-to-right source order: the token
sequence a ( 1 , 2 , 3 ) parses to a FunctionCall node with argument list
Number 1, Number 2, Number 3, not reversed. -/
theorem claim8_arg_order :
    parse_expression [tokA, tokLP, tok1, tokComma, tok2, tokComma, tok3,
        tokRP] 0 =
      .ok (.FunctionCallNode (.IdentifierNode tokA)
        [.NumberNode tok1, .NumberNode tok2, .NumberNode tok3], 8) := rfl

/-- C9: for every base-type keyword and every k, parse_declaration applied
to a declaration with k star tokens between the base-type keyword and the
identifier produces a DeclarationNode whose ctype is exactly k nested
PointerCType wrappers around the base type, with the base type innermost. -/
theorem claim9_pointer_nesting (bk : TokenKind) (ct : CType)
    (hbk : typeTokenCType bk = some ct) (k : Nat) (best : BestErr) :
    (parse_declaration (declToks bk k) 0 best).1 =
      .ok (.DeclarationNode tokA (nestPtr k ct), k + 3) := by
  cases bk <;> simp [typeTokenCType] at hbk
  all_goals (
    subst hbk
    exact decl_general _ _ k best (by decide) (by decide) rfl
      (by simp [_expect_type_name, _match_token, declToks]))

/-- C9 witness: a declaration of an int with two stars yields two nested
pointer wrappers. -/
theorem claim9_witness :
    (parse_declaration (declToks .int_kw 2) 0 none).1 =
      .ok (.DeclarationNode tokA (nestPtr 2 (.base .integer true)), 2 + 3) :=
  claim9_pointer_nesting .int_kw (.base .integer true) rfl 2 none

/-- C10: in parse_declaration, when the token after the identifier is an
opening square bracket whose continuation is not a number token directly
followed by a closing square bracket, the bracket tokens are left
unconsumed and no array-specific error is raised: the declaration fails
with the expected-semicolon error of kind AFTER anchored at the opening
bracket, and the declared type gains no array wrapper. -/
theorem claim10_array_suffix (tokens : List Token) (index : Nat)
    (ctype : CType) (name : Token) (t : Token)
    (hopen : tokens[index]? = some t) (hkind : t.kind = .open_sq_brack)
    (hnotarr : ¬ (_next_token_is tokens (index + 1) .number = true ∧
        _next_token_is tokens (index + 2) .close_sq_brack = true)) :
    parse_decl_array_semi tokens index ctype name =
      .error (.perr ⟨msgExpectedSemicolon, index, .AFTER⟩) := by
  have hcond : (_next_token_is tokens index .open_sq_brack
      && _next_token_is tokens (index + 1) .number
      && _next_token_is tokens (index + 2) .close_sq_brack) = false := by
    cases hn : _next_token_is tokens (index + 1) .number with
    | false => simp [hn]
    | true =>
      cases hc : _next_token_is tokens (index + 2) .close_sq_brack with
      | false => simp [hc]
      | true => exact absurd ⟨hn, hc⟩ hnotarr
  unfold parse_decl_array_semi
  rw [hcond]
  simp only [Bool.false_eq_true, if_false, ite_false]
  unfold declSemi _expect_semicolon _match_token
  rw [hopen]
  simp [hkind]

/-- C10 witness: the bracket-then-bracket continuation of int a [ ] ; fails
with the expected-semicolon error anchored at the opening bracket. -/
theorem claim10_witness :
    parse_decl_array_semi [tokLSq, tokRSq, tokSemi] 0 (.base .integer true)
        tokA =
      .error (.perr ⟨msgExpectedSemicolon, 0, .AFTER⟩) :=
  claim10_array_suffix [tokLSq, tokRSq, tokSemi] 0 (.base .integer true) tokA
    tokLSq rfl rfl (by decide)
